import Mathlib

/-!
Shallow embedding of the ledger engine of Wealth_App (src/PFA_app.py).

Money is modelled as exact rationals (the spec scopes every monetary claim
to amounts of bounded decimal precision, which rationals represent
exactly).  Calendar dates and timestamps are modelled as integer day
numbers, so `d - 1` is the previous day and `d + 7` is one week later.
The JSON record stores (accounts.json, transactions.json,
standing_orders.json, auto_split.json, badges.json, goals.json) are
modelled as Lean structures and lists, with Python dict insertion order
kept as list order.  Each definition below mirrors one function or one
Streamlit handler of src/PFA_app.py; the theorems at the end of the file
settle the specification claims against these definitions.
-/

namespace WealthApp

/-- Transaction type field: the source stores the strings Income and
Expense; any other string behaves as Expense, so two constructors
suffice. -/
inductive TxType
  | Income
  | Expense
  deriving DecidableEq, Repr

/-- Standing-order frequency field: Weekly or Monthly (any non-Weekly
string behaves as Monthly in the source check on line 1168). -/
inductive Freq
  | Weekly
  | Monthly
  deriving DecidableEq, Repr

/-- Error outcomes of apply_transaction_simple / revert_transaction_simple
(the source returns (False, message); the two message shapes are
abstracted into the two error kinds named by the spec). -/
inductive LedgerError
  | accountNotFound
  | insufficientFunds
  deriving DecidableEq, Repr

/-- One record of accounts.json: name, balance, allocated. -/
structure Account where
  name : String
  balance : ℚ
  allocated : ℚ
  deriving DecidableEq, Repr

/-- One record of transactions.json: the account field may be a real
account name, the sentinel Auto-Split, or missing (None); timestamp is a
day number; the optional goal field drives streak attribution. -/
structure Tx where
  type : TxType
  amount : ℚ
  account : Option String
  note : String
  category : String
  timestamp : Int
  goal : Option String
  deriving DecidableEq, Repr

/-- One record of standing_orders.json.  next_execution is optional: the
tick initializes a missing date to today (source line 1163). -/
structure StandingOrder where
  type : TxType
  amount : ℚ
  note : String
  frequency : Freq
  next_execution : Option Int
  account : String
  use_auto : Bool
  deriving DecidableEq, Repr

/-- The auto_split.json record: enabled flag plus the ratio table
(account name to percentage), kept in insertion order. -/
structure AutoSplit where
  enabled : Bool
  ratios : List (String × ℚ)
  deriving DecidableEq, Repr

/-- The value part of one badges.json entry. -/
structure BadgeData where
  title : String
  description : String
  awarded_at : Int
  deriving DecidableEq, Repr

/-- One record of goals.json. history is the list of per-day
accumulated contribution entries (date, amount). -/
structure Goal where
  name : String
  target : ℚ
  current : ℚ
  allocated_from : String
  streak_count : Nat
  last_contribution_date : Option Int
  milestones_hit : List Nat
  history : List (Int × ℚ)
  deriving DecidableEq, Repr

/-- The stores touched by the pages the claims are about: accounts.json,
transactions.json and goals.json together. -/
structure AppState where
  accounts : List Account
  transactions : List Tx
  goals : List Goal
  deriving DecidableEq, Repr

/-- Mutating the first list element satisfying p, leaving the rest alone:
this is the pure rendering of the source pattern
"for acc in accounts: if acc[name] == target: mutate(acc); break" and of
mutating the object returned by next(...). -/
def updateFirst (p : α → Bool) (f : α → α) : List α → List α
  | [] => []
  | a :: rest => if p a then f a :: rest else a :: updateFirst p f rest

/-- ratios.get(acc_name, 0) on the ratio table. -/
def ratioLookup (ratios : List (String × ℚ)) (nm : String) : ℚ :=
  ((ratios.find? (fun r => r.1 == nm)).map (fun r => r.2)).getD 0

/-- sum(ratios.values()). -/
def ratiosSum (ratios : List (String × ℚ)) : ℚ :=
  (ratios.map (fun r => r.2)).sum

/-- apply_transaction_simple (src/PFA_app.py lines 156-169): credit the
named account for Income; for Expense fail with insufficient funds when
balance < amount, otherwise debit.  The mutated account list is returned
next to the outcome; on failure the source returns before touching any
account, so the input list comes back unchanged. -/
def apply_transaction_simple (tx : Tx) (accounts : List Account) :
    Except LedgerError Unit × List Account :=
  let accName := tx.account.getD "Main (Needs)"
  match accounts.find? (fun a => a.name == accName) with
  | none => (Except.error LedgerError.accountNotFound, accounts)
  | some acc =>
    match tx.type with
    | TxType.Income =>
        (Except.ok (), updateFirst (fun a => a.name == accName)
          (fun a => { a with balance := a.balance + tx.amount }) accounts)
    | TxType.Expense =>
        if acc.balance < tx.amount then
          (Except.error LedgerError.insufficientFunds, accounts)
        else
          (Except.ok (), updateFirst (fun a => a.name == accName)
            (fun a => { a with balance := a.balance - tx.amount }) accounts)

/-- revert_transaction_simple (src/PFA_app.py lines 171-182): Income
revert debits, Expense revert credits, no funds check. -/
def revert_transaction_simple (tx : Tx) (accounts : List Account) :
    Except LedgerError Unit × List Account :=
  let accName := tx.account.getD "Main (Needs)"
  match accounts.find? (fun a => a.name == accName) with
  | none => (Except.error LedgerError.accountNotFound, accounts)
  | some _ =>
    match tx.type with
    | TxType.Income =>
        (Except.ok (), updateFirst (fun a => a.name == accName)
          (fun a => { a with balance := a.balance - tx.amount }) accounts)
    | TxType.Expense =>
        (Except.ok (), updateFirst (fun a => a.name == accName)
          (fun a => { a with balance := a.balance + tx.amount }) accounts)

/-- The Save Transaction handler of the Transactions page
(src/PFA_app.py lines 1241-1281).  Income with auto-split enabled
distributes amount * ratio/total over every account when the ratio sum is
positive and does nothing to balances when it is zero; Income without
auto-split credits the first account matching the selection; Expense
debits the first matching account only when its balance suffices.  In
every case the handler then appends the transaction record to the ledger
and saves both stores (the append is not guarded by the funds check). -/
def save_transaction (txType : TxType) (useAuto : Bool)
    (selectedAccount : Option String) (amount : ℚ) (note : String)
    (timestamp : Int) (autoSplit : AutoSplit)
    (accounts : List Account) (transactions : List Tx) :
    List Account × List Tx :=
  let accounts' :=
    match txType with
    | TxType.Income =>
      if useAuto && autoSplit.enabled then
        let total := ratiosSum autoSplit.ratios
        if 0 < total then
          accounts.map (fun a =>
            { a with balance :=
                a.balance + amount * (ratioLookup autoSplit.ratios a.name / total) })
        else accounts
      else
        match selectedAccount with
        | some sel => updateFirst (fun a => a.name == sel)
            (fun a => { a with balance := a.balance + amount }) accounts
        | none => accounts
    | TxType.Expense =>
      match selectedAccount with
      | some sel => updateFirst (fun a => a.name == sel)
          (fun a => if amount ≤ a.balance
                    then { a with balance := a.balance - amount }
                    else a) accounts
      | none => accounts
  let tx : Tx :=
    { type := txType
      amount := amount
      account := if useAuto then some "Auto-Split" else selectedAccount
      note := note
      category := "Other"
      timestamp := timestamp
      goal := none }
  (accounts', transactions ++ [tx])

/-- The loop body of Execute Due Standing Orders on the Transactions page
(src/PFA_app.py lines 1161-1206), for a single order: a missing
next_execution is first initialized to today; an order due today or
earlier is applied to the accounts (auto-split Income over all accounts,
plain Income credited to the first matching account, Expense debited from
the first matching account only when the balance suffices), exactly one
transaction is appended, and next_execution is set to today plus 7 or 30
days.  An order not yet due is left untouched apart from the
initialization. -/
def execute_order_step (today : Int) (autoSplit : AutoSplit)
    (accounts : List Account) (transactions : List Tx)
    (o : StandingOrder) : StandingOrder × List Account × List Tx :=
  let nextEx := o.next_execution.getD today
  if nextEx ≤ today then
    let freqDays : Int := if o.frequency = Freq.Weekly then 7 else 30
    let accounts' :=
      match o.type with
      | TxType.Income =>
        if o.use_auto && autoSplit.enabled then
          let total := ratiosSum autoSplit.ratios
          if 0 < total then
            accounts.map (fun a =>
              { a with balance :=
                  a.balance + o.amount * (ratioLookup autoSplit.ratios a.name / total) })
          else accounts
        else
          updateFirst (fun a => a.name == o.account)
            (fun a => { a with balance := a.balance + o.amount }) accounts
      | TxType.Expense =>
        updateFirst (fun a => a.name == o.account)
          (fun a => if o.amount ≤ a.balance
                    then { a with balance := a.balance - o.amount }
                    else a) accounts
    let tx : Tx :=
      { type := o.type
        amount := o.amount
        account := some (if o.use_auto then "Auto-Split" else o.account)
        note := "(Standing) " ++ o.note
        category := "Other"
        timestamp := today
        goal := none }
    ({ o with next_execution := some (today + freqDays) },
     accounts', transactions ++ [tx])
  else
    ({ o with next_execution := some nextEx }, accounts, transactions)

/-- The delete button handler in the Transactions History list
(src/PFA_app.py lines 1343-1369).  For an Auto-Split row the currently
configured ratios are reverted proportionally; for a plain row the
account is debited or credited according to the value of the variable
tx_type, which in the source is the Type selectbox of the Add Transaction
form (line 1222), not the type of the deleted row.  Finally the row is
popped from the ledger. -/
def delete_transaction_handler (formType : TxType) (autoSplit : AutoSplit)
    (accounts : List Account) (transactions : List Tx) (i : Nat) :
    List Account × List Tx :=
  match transactions[i]? with
  | none => (accounts, transactions)
  | some row =>
    let amt := row.amount
    let accounts' :=
      if row.account = some "Auto-Split" then
        let ratios := if autoSplit.enabled then autoSplit.ratios else []
        let total := ratiosSum ratios
        if 0 < total then
          accounts.map (fun a =>
            { a with balance :=
                a.balance - amt * (ratioLookup ratios a.name / total) })
        else accounts
      else
        updateFirst (fun a => row.account == some a.name)
          (fun a =>
            match formType with
            | TxType.Income => { a with balance := a.balance - amt }
            | TxType.Expense => { a with balance := a.balance + amt })
          accounts
    (accounts', transactions.eraseIdx i)

/-- award_badge (src/PFA_app.py lines 327-332): insert the record only
when the id is not yet a key of the badge store (Python dict insertion
appends new keys at the end). -/
def award_badge (badges : List (String × BadgeData)) (badgeId : String)
    (title : String) (descr : String) (now : Int) :
    List (String × BadgeData) :=
  if badges.any (fun b => b.1 == badgeId) then badges
  else badges ++ [(badgeId, { title := title, description := descr, awarded_at := now })]

/-- Accumulating one amount into a keyed day bucket: the Python pattern
daily[d] = daily.get(d, 0) + amount, and equally the per-day history
aggregation of the Goals page (lines 589-600), which updates the existing
entry for the day or appends a new one. -/
def bump (l : List (Int × ℚ)) (d : Int) (amt : ℚ) : List (Int × ℚ) :=
  if l.any (fun p => p.1 == d) then
    l.map (fun p => if p.1 == d then (p.1, p.2 + amt) else p)
  else l ++ [(d, amt)]

/-- hay contains pat as a substring (the Python "pat in hay" test). -/
def strContains (hay : String) (pat : String) : Bool :=
  hay.toList.tails.any (fun t => pat.toList.isPrefixOf t)

/-- The attribution test of goal_daily_totals (src/PFA_app.py line 302):
the transaction carries the goal name in its goal field, or its note
contains the goal-tagged marker string. -/
def attributedToGoal (goalName : String) (tx : Tx) : Bool :=
  (tx.goal.getD "" == goalName) || strContains tx.note ("[Goal] " ++ goalName)

/-- goal_daily_totals (src/PFA_app.py lines 296-308): fold the ledger
into a day-keyed table of attributed contribution totals.  The day of a
transaction is its timestamp (already a day number in this model). -/
def goal_daily_totals (goalName : String) (transactions : List Tx) :
    List (Int × ℚ) :=
  transactions.foldl
    (fun daily tx =>
      if attributedToGoal goalName tx then bump daily tx.timestamp tx.amount
      else daily)
    []

/-- Filtering with a pointwise weaker predicate keeps at most as many
elements. -/
theorem filter_length_mono {p q : Int → Bool}
    (hpq : ∀ x, q x = true → p x = true) :
    ∀ l : List Int, (l.filter q).length ≤ (l.filter p).length := by
  intro l
  induction l with
  | nil => simp
  | cons a t ih =>
    by_cases hq : q a = true
    · have hp := hpq a hq
      simp [List.filter, hq, hp]
      omega
    · have hq' : q a = false := by revert hq; cases q a <;> simp
      cases hp : p a <;> simp [List.filter, hq', hp] <;> omega

/-- Termination measure for the streak walk: when the current day is a
key, strictly fewer keys lie at or below the previous day. -/
theorem filter_le_length_lt {keys : List Int} {cur : Int}
    (h : cur ∈ keys) :
    (keys.filter (fun d => decide (d ≤ cur - 1))).length <
      (keys.filter (fun d => decide (d ≤ cur))).length := by
  induction keys with
  | nil => cases h
  | cons a t ih =>
    rcases List.mem_cons.mp h with rfl | hmem
    · have h1 : decide (cur ≤ cur - 1) = false := by simp
      have h2 : decide (cur ≤ cur) = true := by simp
      simp only [List.filter, h1, h2]
      have := @filter_length_mono (fun d => decide (d ≤ cur))
        (fun d => decide (d ≤ cur - 1))
        (by intro x hx; simp at hx ⊢; omega) t
      simp
      omega
    · have hstep := ih hmem
      cases h1 : decide (a ≤ cur - 1) <;> cases h2 : decide (a ≤ cur) <;>
        simp only [List.filter, h1, h2, List.length_cons] <;>
        first
          | omega
          | (exfalso; simp at h1 h2; omega)

/-- The while loop of compute_streak_for_goal (src/PFA_app.py lines
318-324), carrying the streak and last_date accumulators and stepping one
day back while the current day is a key of the table. -/
def streakAux (keys : List Int) (cur : Int) (streak : Nat)
    (last : Option Int) : Nat × Option Int :=
  if cur ∈ keys then streakAux keys (cur - 1) (streak + 1) (some cur)
  else (streak, last)
  termination_by (keys.filter (fun d => decide (d ≤ cur))).length
  decreasing_by
    exact WealthApp.filter_le_length_lt (by assumption)

/-- compute_streak_for_goal (src/PFA_app.py lines 310-325): empty table
gives (0, none); otherwise walk backward from today while days are
present. -/
def compute_streak_for_goal (goalName : String) (transactions : List Tx)
    (today : Int) : Nat × Option Int :=
  let daily := goal_daily_totals goalName transactions
  if daily.isEmpty then (0, none)
  else streakAux (daily.map (fun p => p.1)) today 0 none

/-- A concrete ledger entry attributed to goal Em on day 0, used to
instantiate the streak theorems. -/
def txEmDay0 : Tx :=
  { type := TxType.Income, amount := 50, account := some "Main",
    note := "", category := "Other", timestamp := 0, goal := some "Em" }

/-- A concrete ledger entry attributed to goal Em on day -2 (two days
before day 0), used to instantiate the streak theorems. -/
def txEmDay2 : Tx :=
  { type := TxType.Income, amount := 30, account := some "Main",
    note := "", category := "Other", timestamp := -2, goal := some "Em" }

/-- The add-contribution button handler of the Goals page
(src/PFA_app.py lines 548-613), after the amount string has been parsed:
update current, streak, last date, the allocated field of the first
account matching allocated_from, milestones and the per-day history of
goal i.  The transaction ledger is not an input of this handler in the
source; it is carried through the state untouched. -/
def add_contribution (s : AppState) (i : Nat) (add_amount : ℚ)
    (today : Int) : AppState :=
  match s.goals[i]? with
  | none => s
  | some g =>
    let new_total := g.current + add_amount
    let streak' : Nat :=
      if g.last_contribution_date = some (today - 1) then g.streak_count + 1
      else if g.last_contribution_date = some today then g.streak_count
      else 1
    let accounts' := updateFirst (fun a => a.name == g.allocated_from)
      (fun a => { a with allocated := a.allocated + add_amount }) s.accounts
    let progress_pct : ℚ :=
      if 0 < g.target then new_total / g.target * 100 else 0
    let milestones' :=
      ([25, 50, 75, 100] : List Nat).foldl
        (fun (hit : List Nat) (m : Nat) =>
          if (m : ℚ) ≤ progress_pct ∧ m ∉ hit then hit ++ [m] else hit)
        g.milestones_hit
    let g' : Goal :=
      { g with
        current := new_total
        streak_count := streak'
        last_contribution_date := some today
        milestones_hit := milestones'
        history := bump g.history today add_amount }
    { s with goals := s.goals.set i g', accounts := accounts' }

/-- A concrete savings goal drawing from account Bank, used to
instantiate the contribution frame theorem. -/
def sampleGoal : Goal :=
  { name := "Em", target := 100, current := 10, allocated_from := "Bank",
    streak_count := 0, last_contribution_date := none,
    milestones_hit := [], history := [] }

/-- A concrete second account not referenced by sampleGoal. -/
def sampleOther : Account :=
  { name := "Other", balance := 50, allocated := 0 }

/-- A concrete application state with two accounts, one ledger entry and
one goal, used to instantiate the contribution frame theorem. -/
def sampleState : AppState :=
  { accounts := [{ name := "Bank", balance := 100, allocated := 5 },
      sampleOther]
    transactions := [txEmDay0]
    goals := [sampleGoal] }

/-! Helper lemmas about updateFirst and find?. -/

/-- If the first match is left fixed by f, updateFirst changes nothing. -/
theorem updateFirst_eq_self {α} {p : α → Bool} {f : α → α} :
    ∀ {l : List α} {a : α}, l.find? p = some a → f a = a →
      updateFirst p f l = l := by
  intro l
  induction l with
  | nil => intro a h _; simp [List.find?] at h
  | cons x t ih =>
    intro a h hfa
    cases hpx : p x with
    | true =>
      have hx : x = a := by simp [List.find?, hpx] at h; exact h
      subst hx
      simp [updateFirst, hpx, hfa]
    | false =>
      have ht : t.find? p = some a := by simpa [List.find?, hpx] using h
      simp [updateFirst, hpx, ih ht hfa]

/-- updateFirst with a predicate-preserving f moves find? through f. -/
theorem find?_updateFirst {α} {p : α → Bool} {f : α → α}
    (hp : ∀ a, p (f a) = p a) :
    ∀ {l : List α} {a : α}, l.find? p = some a →
      (updateFirst p f l).find? p = some (f a) := by
  intro l
  induction l with
  | nil => intro a h; simp [List.find?] at h
  | cons x t ih =>
    intro a h
    cases hpx : p x with
    | true =>
      have hx : x = a := by simp [List.find?, hpx] at h; exact h
      subst hx
      simp [updateFirst, hpx, List.find?, hp x]
    | false =>
      have ht : t.find? p = some a := by simpa [List.find?, hpx] using h
      simp [updateFirst, hpx, List.find?, ih ht]

/-- Two successive updateFirst calls cancel when the second inverts the
first on matching elements and the first preserves the predicate. -/
theorem updateFirst_cancel {α} {p : α → Bool} {f g : α → α}
    (hp : ∀ a, p (f a) = p a)
    (hc : ∀ a, p a = true → g (f a) = a) :
    ∀ l : List α, updateFirst p g (updateFirst p f l) = l := by
  intro l
  induction l with
  | nil => rfl
  | cons x t ih =>
    cases hpx : p x with
    | true => simp [updateFirst, hpx, hp x, hc x hpx]
    | false => simp [updateFirst, hpx, ih]

/-! Claim theorems. -/

/-- Claim C1: for an Expense transaction against an existing account with
balance B, apply_transaction_simple fails with insufficient funds exactly
when the amount exceeds B, and on that failure the whole account store
(this account and every other) is returned unchanged. -/
theorem apply_expense_insufficient_iff (tx : Tx) (accounts : List Account)
    (acc : Account)
    (hfind : accounts.find?
        (fun a => a.name == tx.account.getD "Main (Needs)") = some acc)
    (htype : tx.type = TxType.Expense) :
    ((apply_transaction_simple tx accounts).1
        = Except.error LedgerError.insufficientFunds ↔ acc.balance < tx.amount)
    ∧ (acc.balance < tx.amount →
        (apply_transaction_simple tx accounts).2 = accounts) := by
  by_cases h : acc.balance < tx.amount
  · simp [apply_transaction_simple, hfind, htype, h]
  · simp [apply_transaction_simple, hfind, htype, h]

/-- Witness for C1: an Expense of 50 against an account holding 10 is
rejected with insufficient funds and the account store is unchanged. -/
theorem apply_expense_insufficient_iff_witness :
    ((apply_transaction_simple
        { type := TxType.Expense, amount := 50, account := some "Main",
          note := "", category := "Other", timestamp := 0, goal := none }
        [{ name := "Main", balance := 10, allocated := 0 }]).1
      = Except.error LedgerError.insufficientFunds)
    ∧ ((apply_transaction_simple
        { type := TxType.Expense, amount := 50, account := some "Main",
          note := "", category := "Other", timestamp := 0, goal := none }
        [{ name := "Main", balance := 10, allocated := 0 }]).2
      = [{ name := "Main", balance := 10, allocated := 0 }]) := by
  have h := apply_expense_insufficient_iff
    { type := TxType.Expense, amount := 50, account := some "Main",
      note := "", category := "Other", timestamp := 0, goal := none }
    [{ name := "Main", balance := 10, allocated := 0 }]
    { name := "Main", balance := 10, allocated := 0 }
    (by decide) rfl
  exact ⟨h.1.mpr (by norm_num), h.2 (by norm_num)⟩

/-- Claim C2: applying an Income transaction to an existing account and
then reverting the same transaction restores the exact original account
store. -/
theorem income_apply_revert_roundtrip (tx : Tx) (accounts : List Account)
    (acc : Account)
    (hfind : accounts.find?
        (fun a => a.name == tx.account.getD "Main (Needs)") = some acc)
    (htype : tx.type = TxType.Income) :
    revert_transaction_simple tx (apply_transaction_simple tx accounts).2
      = (Except.ok (), accounts) := by
  have happ : (apply_transaction_simple tx accounts).2
      = updateFirst (fun a => a.name == tx.account.getD "Main (Needs)")
          (fun a => { a with balance := a.balance + tx.amount }) accounts := by
    simp [apply_transaction_simple, hfind, htype]
  have hp : ∀ a : Account,
      (fun a => a.name == tx.account.getD "Main (Needs)")
        ({ a with balance := a.balance + tx.amount } : Account)
      = (fun a => a.name == tx.account.getD "Main (Needs)") a :=
    fun a => rfl
  have hfind2 := find?_updateFirst hp hfind
  rw [happ]
  simp only [revert_transaction_simple, hfind2, htype]
  rw [updateFirst_cancel hp
    (by intro a _; cases a; simp)]

/-- Witness for C2: an Income of 100 applied to an account holding 5 and
then reverted ends with the account holding 5 again. -/
theorem income_apply_revert_roundtrip_witness :
    revert_transaction_simple
      { type := TxType.Income, amount := 100, account := some "Main",
        note := "", category := "Other", timestamp := 0, goal := none }
      (apply_transaction_simple
        { type := TxType.Income, amount := 100, account := some "Main",
          note := "", category := "Other", timestamp := 0, goal := none }
        [{ name := "Main", balance := 5, allocated := 0 }]).2
      = (Except.ok (), [{ name := "Main", balance := 5, allocated := 0 }]) :=
  income_apply_revert_roundtrip
    { type := TxType.Income, amount := 100, account := some "Main",
      note := "", category := "Other", timestamp := 0, goal := none }
    [{ name := "Main", balance := 5, allocated := 0 }]
    { name := "Main", balance := 5, allocated := 0 }
    (by decide) rfl

/-- Claim C3 is violated by the source: the delete handler decides the
revert direction from the variable tx_type, which is the Type selectbox
of the Add Transaction form (src/PFA_app.py line 1222), not the type of
the deleted row (line 1360 should read row.type).  Deleting an Expense of
50 on Main (balance 100) while the form selector shows Income debits the
account to 50; the claim requires crediting it to 150.  The row is
removed from the ledger either way. -/
theorem delete_uses_form_type_not_row_type :
    delete_transaction_handler TxType.Income { enabled := false, ratios := [] }
      [{ name := "Main", balance := 100, allocated := 0 }]
      [{ type := TxType.Expense, amount := 50, account := some "Main",
         note := "", category := "Other", timestamp := 0, goal := none }] 0
      = ([{ name := "Main", balance := 50, allocated := 0 }], [])
    ∧ ({ name := "Main", balance := 50, allocated := 0 } : Account)
      ≠ { name := "Main", balance := 150, allocated := 0 } := by
  constructor
  · simp [delete_transaction_handler, updateFirst, List.eraseIdx]
    norm_num
  · simp

/-- Counterexample to claim C4 as stated: an Expense add rejected for
insufficient balance (amount 50 against balance 10) still appends the
transaction record to the ledger, so the rejected command does not
perform zero state mutation. -/
theorem rejected_expense_appends_counterexample :
    (save_transaction TxType.Expense false (some "Main") 50 "" 0
        { enabled := false, ratios := [] }
        [{ name := "Main", balance := 10, allocated := 0 }] []).2
      ≠ ([] : List Tx) := by
  decide

/-- Claim C4 (amended): an Expense add rejected for insufficient balance
changes no account balance, but the transaction record is still appended
to the ledger. -/
theorem rejected_expense_frame (useAuto : Bool) (sel : String)
    (amount : ℚ) (note : String) (ts : Int) (autoSplit : AutoSplit)
    (accounts : List Account) (transactions : List Tx) (acc : Account)
    (hfind : accounts.find? (fun a => a.name == sel) = some acc)
    (hlt : acc.balance < amount) :
    ((save_transaction TxType.Expense useAuto (some sel) amount note ts
        autoSplit accounts transactions).1 = accounts)
    ∧ ((save_transaction TxType.Expense useAuto (some sel) amount note ts
        autoSplit accounts transactions).2
      = transactions ++
        [{ type := TxType.Expense, amount := amount,
           account := if useAuto then some "Auto-Split" else some sel,
           note := note, category := "Other", timestamp := ts,
           goal := none }]) := by
  have hfix : (fun a : Account =>
      if amount ≤ a.balance then { a with balance := a.balance - amount }
      else a) acc = acc := by
    simp [not_le.mpr hlt]
  constructor
  · exact updateFirst_eq_self hfind hfix
  · simp [save_transaction]

/-- Witness for C4 (amended): the rejected Expense of 50 against balance
10 leaves the store unchanged and appends exactly the transaction
record. -/
theorem rejected_expense_frame_witness :
    ((save_transaction TxType.Expense false (some "Main") 50 "" 0
        { enabled := false, ratios := [] }
        [{ name := "Main", balance := 10, allocated := 0 }] []).1
      = [{ name := "Main", balance := 10, allocated := 0 }])
    ∧ ((save_transaction TxType.Expense false (some "Main") 50 "" 0
        { enabled := false, ratios := [] }
        [{ name := "Main", balance := 10, allocated := 0 }] []).2
      = [{ type := TxType.Expense, amount := 50, account := some "Main",
           note := "", category := "Other", timestamp := 0,
           goal := none }]) := by
  have h := rejected_expense_frame false "Main" 50 "" 0
    { enabled := false, ratios := [] }
    [{ name := "Main", balance := 10, allocated := 0 }] []
    { name := "Main", balance := 10, allocated := 0 }
    (by decide) (by norm_num)
  exact ⟨h.1, by rw [h.2]; rfl⟩

/-- Counterexample to claim C5 as stated: with days numbered from
2024-01-01 = 0 (so 2024-01-08 = 7, 2024-01-10 = 9, 2024-01-17 = 16), a
Weekly order due since day 0 and evaluated on day 9 ends with
next_execution on day 16 (today plus 7), not day 7 (previous date plus
7) as the claim requires. -/
theorem standing_order_advance_counterexample :
    ((execute_order_step 9 { enabled := false, ratios := [] }
        [{ name := "Main", balance := 0, allocated := 0 }] []
        { type := TxType.Income, amount := 10, note := "",
          frequency := Freq.Weekly, next_execution := some 0,
          account := "Main", use_auto := false }).1.next_execution
      = some 16)
    ∧ (16 : Int) ≠ 7 := by
  constructor
  · decide
  · decide

/-- Claim C5 (amended): one evaluation tick of a due standing order
materializes exactly one transaction (appended at the end of the ledger)
and sets next_execution to today plus one period: 7 days for Weekly, 30
days for Monthly. -/
theorem standing_order_tick (today : Int) (autoSplit : AutoSplit)
    (accounts : List Account) (transactions : List Tx) (o : StandingOrder)
    (hdue : o.next_execution.getD today ≤ today) :
    ((execute_order_step today autoSplit accounts transactions o).2.2
      = transactions ++
        [{ type := o.type, amount := o.amount,
           account := some (if o.use_auto then "Auto-Split" else o.account),
           note := "(Standing) " ++ o.note, category := "Other",
           timestamp := today, goal := none }])
    ∧ ((execute_order_step today autoSplit accounts transactions o).1.next_execution
      = some (today + if o.frequency = Freq.Weekly then 7 else 30)) := by
  constructor
  · simp [execute_order_step, hdue]
  · simp [execute_order_step, hdue]

/-- Witness for C5 (amended): the Weekly order of the spec example (due
day 0, evaluated day 9) appends exactly one transaction and ends with
next_execution on day 16. -/
theorem standing_order_tick_witness :
    ((execute_order_step 9 { enabled := false, ratios := [] }
        [{ name := "Main", balance := 0, allocated := 0 }] []
        { type := TxType.Income, amount := 10, note := "",
          frequency := Freq.Weekly, next_execution := some 0,
          account := "Main", use_auto := false }).2.2
      = [{ type := TxType.Income, amount := 10, account := some "Main",
           note := "(Standing) ", category := "Other", timestamp := 9,
           goal := none }])
    ∧ ((execute_order_step 9 { enabled := false, ratios := [] }
        [{ name := "Main", balance := 0, allocated := 0 }] []
        { type := TxType.Income, amount := 10, note := "",
          frequency := Freq.Weekly, next_execution := some 0,
          account := "Main", use_auto := false }).1.next_execution
      = some 16) := by
  have h := standing_order_tick 9 { enabled := false, ratios := [] }
    [{ name := "Main", balance := 0, allocated := 0 }] []
    { type := TxType.Income, amount := 10, note := "",
      frequency := Freq.Weekly, next_execution := some 0,
      account := "Main", use_auto := false }
    (by norm_num)
  refine ⟨by rw [h.1]; rfl, by rw [h.2]; rfl⟩

/-- Claim C6: a due Expense standing order whose target account holds
less than the order amount leaves every account unchanged, still appends
the materialized transaction, and still advances next_execution. -/
theorem standing_order_insufficient_expense (today : Int)
    (autoSplit : AutoSplit) (accounts : List Account)
    (transactions : List Tx) (o : StandingOrder) (acc : Account)
    (hdue : o.next_execution.getD today ≤ today)
    (htype : o.type = TxType.Expense)
    (hfind : accounts.find? (fun a => a.name == o.account) = some acc)
    (hlt : acc.balance < o.amount) :
    ((execute_order_step today autoSplit accounts transactions o).2.1
      = accounts)
    ∧ ((execute_order_step today autoSplit accounts transactions o).2.2
      = transactions ++
        [{ type := o.type, amount := o.amount,
           account := some (if o.use_auto then "Auto-Split" else o.account),
           note := "(Standing) " ++ o.note, category := "Other",
           timestamp := today, goal := none }])
    ∧ ((execute_order_step today autoSplit accounts transactions o).1.next_execution
      = some (today + if o.frequency = Freq.Weekly then 7 else 30)) := by
  have hfix : (fun a : Account =>
      if o.amount ≤ a.balance then { a with balance := a.balance - o.amount }
      else a) acc = acc := by
    simp [not_le.mpr hlt]
  refine ⟨?_, ?_, ?_⟩
  · simp only [execute_order_step, hdue, if_true, htype]
    exact updateFirst_eq_self hfind hfix
  · simp [execute_order_step, hdue]
  · simp [execute_order_step, hdue]

/-- Witness for C6: a due Expense order of 50 against balance 10 leaves
the balance at 10, appends the transaction and moves next_execution to
today plus 30 (Monthly). -/
theorem standing_order_insufficient_expense_witness :
    ((execute_order_step 9 { enabled := false, ratios := [] }
        [{ name := "Main", balance := 10, allocated := 0 }] []
        { type := TxType.Expense, amount := 50, note := "Rent",
          frequency := Freq.Monthly, next_execution := some 0,
          account := "Main", use_auto := false }).2.1
      = [{ name := "Main", balance := 10, allocated := 0 }])
    ∧ ((execute_order_step 9 { enabled := false, ratios := [] }
        [{ name := "Main", balance := 10, allocated := 0 }] []
        { type := TxType.Expense, amount := 50, note := "Rent",
          frequency := Freq.Monthly, next_execution := some 0,
          account := "Main", use_auto := false }).2.2
      = [{ type := TxType.Expense, amount := 50, account := some "Main",
           note := "(Standing) Rent", category := "Other", timestamp := 9,
           goal := none }])
    ∧ ((execute_order_step 9 { enabled := false, ratios := [] }
        [{ name := "Main", balance := 10, allocated := 0 }] []
        { type := TxType.Expense, amount := 50, note := "Rent",
          frequency := Freq.Monthly, next_execution := some 0,
          account := "Main", use_auto := false }).1.next_execution
      = some 39) := by
  have h := standing_order_insufficient_expense 9
    { enabled := false, ratios := [] }
    [{ name := "Main", balance := 10, allocated := 0 }] []
    { type := TxType.Expense, amount := 50, note := "Rent",
      frequency := Freq.Monthly, next_execution := some 0,
      account := "Main", use_auto := false }
    { name := "Main", balance := 10, allocated := 0 }
    (by norm_num) rfl (by decide) (by norm_num)
  refine ⟨h.1, by rw [h.2.1]; rfl, by rw [h.2.2]; rfl⟩

/-- Claim C7: an auto-split Income of a given amount credits every
account with amount times its ratio divided by the ratio sum when the sum
is positive, and changes no balance when the ratio sum is zero. -/
theorem auto_split_income_distribution (sel : Option String) (amount : ℚ)
    (note : String) (ts : Int) (autoSplit : AutoSplit)
    (accounts : List Account) (transactions : List Tx)
    (hen : autoSplit.enabled = true) :
    (0 < ratiosSum autoSplit.ratios →
      ∀ (j : Nat) (a : Account), accounts[j]? = some a →
        (save_transaction TxType.Income true sel amount note ts autoSplit
            accounts transactions).1[j]?
          = some { a with balance :=
              a.balance + amount *
                (ratioLookup autoSplit.ratios a.name / ratiosSum autoSplit.ratios) })
    ∧ (ratiosSum autoSplit.ratios = 0 →
      (save_transaction TxType.Income true sel amount note ts autoSplit
          accounts transactions).1 = accounts) := by
  constructor
  · intro hpos j a hj
    simp [save_transaction, hen, hpos, List.getElem?_map, hj]
  · intro h0
    simp [save_transaction, hen, h0]

/-- Witness for C7: ratios X 30 and Y 70 on an income of 100 credit X by
30 and Y by 70. -/
theorem auto_split_income_distribution_witness :
    ((save_transaction TxType.Income true none 100 "" 0
        { enabled := true, ratios := [("X", 30), ("Y", 70)] }
        [{ name := "X", balance := 0, allocated := 0 },
         { name := "Y", balance := 0, allocated := 0 }] []).1[0]?
      = some { name := "X", balance := 30, allocated := 0 })
    ∧ ((save_transaction TxType.Income true none 100 "" 0
        { enabled := true, ratios := [("X", 30), ("Y", 70)] }
        [{ name := "X", balance := 0, allocated := 0 },
         { name := "Y", balance := 0, allocated := 0 }] []).1[1]?
      = some { name := "Y", balance := 70, allocated := 0 }) := by
  have h := auto_split_income_distribution none 100 "" 0
    { enabled := true, ratios := [("X", 30), ("Y", 70)] }
    [{ name := "X", balance := 0, allocated := 0 },
     { name := "Y", balance := 0, allocated := 0 }] [] rfl
  have hpos : 0 < ratiosSum [("X", 30), ("Y", 70)] := by
    norm_num [ratiosSum]
  constructor
  · rw [h.1 hpos 0 { name := "X", balance := 0, allocated := 0 } rfl]
    simp [ratioLookup, ratiosSum, List.find?]
    norm_num
  · rw [h.1 hpos 1 { name := "Y", balance := 0, allocated := 0 } rfl]
    simp [ratioLookup, ratiosSum, List.find?]
    norm_num

/-- find? skips a prefix containing no match. -/
theorem find?_append_none {α} {p : α → Bool} {l1 : List α}
    (h : l1.find? p = none) (l2 : List α) :
    (l1 ++ l2).find? p = l2.find? p := by
  induction l1 with
  | nil => rfl
  | cons x t ih =>
    cases hpx : p x with
    | true => simp [List.find?, hpx] at h
    | false =>
      have ht : t.find? p = none := by simpa [List.find?, hpx] using h
      simpa [List.find?, hpx] using ih ht

/-- Folding further award calls for an id already present in the store is
the identity. -/
theorem foldl_award_of_present (badgeId : String) :
    ∀ (cs : List (String × String × Int)) (s : List (String × BadgeData)),
      s.any (fun b => b.1 == badgeId) = true →
      cs.foldl (fun s c => award_badge s badgeId c.1 c.2.1 c.2.2) s = s := by
  intro cs
  induction cs with
  | nil => intro s _; rfl
  | cons c cs ih =>
    intro s hs
    have hstep : award_badge s badgeId c.1 c.2.1 c.2.2 = s := by
      simp [award_badge, hs]
    simp only [List.foldl, hstep]
    exact ih s hs

/-- Claim C9: awarding a badge whose id is not yet in the store inserts
exactly one record carrying the first awarded_at; every later award call
for the same id, in any number, leaves the store unchanged, so the lookup
still returns the original record and the id occurs exactly once. -/
theorem award_badge_write_once (badges : List (String × BadgeData))
    (badgeId title descr : String) (now : Int)
    (calls : List (String × String × Int))
    (hnew : badges.find? (fun b => b.1 == badgeId) = none) :
    (calls.foldl (fun s c => award_badge s badgeId c.1 c.2.1 c.2.2)
        (award_badge badges badgeId title descr now)
      = award_badge badges badgeId title descr now)
    ∧ ((award_badge badges badgeId title descr now).find?
          (fun b => b.1 == badgeId)
        = some (badgeId,
            { title := title, description := descr, awarded_at := now }))
    ∧ ((award_badge badges badgeId title descr now).countP
          (fun b => b.1 == badgeId) = 1) := by
  have hall : ∀ b ∈ badges, ¬ ((b : String × BadgeData).1 == badgeId) = true := by
    intro b hb
    exact List.find?_eq_none.mp hnew b hb
  have hany : badges.any (fun b => b.1 == badgeId) = false := by
    rw [List.any_eq_false]
    exact hall
  have hb1 : award_badge badges badgeId title descr now
      = badges ++
        [(badgeId, { title := title, description := descr, awarded_at := now })] := by
    simp [award_badge, hany]
  have hany1 : (award_badge badges badgeId title descr now).any
      (fun b => b.1 == badgeId) = true := by
    rw [hb1]
    simp
  refine ⟨foldl_award_of_present badgeId calls _ hany1, ?_, ?_⟩
  · rw [hb1, find?_append_none hnew]
    simp [List.find?]
  · rw [hb1, List.countP_append]
    have h0 : badges.countP (fun b => b.1 == badgeId) = 0 := by
      rw [List.countP_eq_zero]
      exact hall
    simp [h0, List.countP_cons]

/-- Witness for C9: awarding streak_7_Emergency into an empty store and
then re-awarding it with a later timestamp leaves exactly the original
record. -/
theorem award_badge_write_once_witness :
    ([("7-Day Saver", "again", (5 : Int))].foldl
        (fun s c => award_badge s "streak_7_Emergency" c.1 c.2.1 c.2.2)
        (award_badge [] "streak_7_Emergency" "7-Day Saver" "first" 0)
      = award_badge [] "streak_7_Emergency" "7-Day Saver" "first" 0)
    ∧ ((award_badge [] "streak_7_Emergency" "7-Day Saver" "first" 0).find?
          (fun b => b.1 == "streak_7_Emergency")
        = some ("streak_7_Emergency",
            { title := "7-Day Saver", description := "first",
              awarded_at := 0 })) := by
  have h := award_badge_write_once [] "streak_7_Emergency" "7-Day Saver"
    "first" 0 [("7-Day Saver", "again", 5)] rfl
  exact ⟨h.1, h.2.1⟩

/-- One-step unfolding of the streak walk. -/
theorem streakAux_unfold (keys : List Int) (cur : Int) (streak : Nat)
    (last : Option Int) :
    streakAux keys cur streak last
      = if cur ∈ keys then streakAux keys (cur - 1) (streak + 1) (some cur)
        else (streak, last) := by
  rw [streakAux]

/-- Characterization of the streak walk: starting at cur with accumulator
s, it returns s plus the length m of the run of consecutive keys
cur, cur - 1, ..., cur - (m - 1), and cur - m is not a key. -/
theorem streakAux_spec (keys : List Int) :
    ∀ (n : Nat) (cur : Int) (s : Nat) (l : Option Int),
      (keys.filter (fun d => decide (d ≤ cur))).length = n →
      ∃ m : Nat, (streakAux keys cur s l).1 = s + m
        ∧ (∀ k : Nat, k < m → (cur - (k : Int)) ∈ keys)
        ∧ (cur - (m : Int)) ∉ keys := by
  intro n
  induction n using Nat.strong_induction_on with
  | _ n ih =>
    intro cur s l hn
    by_cases hmem : cur ∈ keys
    · have hlt := @filter_le_length_lt keys cur hmem
      have hlt' : (keys.filter (fun d => decide (d ≤ cur - 1))).length < n := by
        omega
      obtain ⟨m, h1, h2, h3⟩ := ih _ hlt' (cur - 1) (s + 1) (some cur) rfl
      refine ⟨m + 1, ?_, ?_, ?_⟩
      · rw [streakAux_unfold, if_pos hmem, h1]
        omega
      · intro k hk
        cases k with
        | zero => simpa using hmem
        | succ j =>
          have heq : cur - ((j + 1 : Nat) : Int) = (cur - 1) - (j : Int) := by
            push_cast
            ring
          rw [heq]
          exact h2 j (by omega)
      · have heq : cur - ((m + 1 : Nat) : Int) = (cur - 1) - (m : Int) := by
          push_cast
          ring
        rw [heq]
        exact h3
    · refine ⟨0, ?_, ?_, ?_⟩
      · rw [streakAux_unfold, if_neg hmem]
        simp
      · intro k hk
        exact absurd hk (Nat.not_lt_zero k)
      · simpa using hmem

/-- bump leaves the key set unchanged except for adding the bumped day. -/
theorem mem_bump_keys (l : List (Int × ℚ)) (d : Int) (amt : ℚ) (x : Int) :
    x ∈ (bump l d amt).map (fun p => p.1)
      ↔ (x ∈ l.map (fun p => p.1) ∨ x = d) := by
  unfold bump
  by_cases h : l.any (fun p => p.1 == d) = true
  · rw [if_pos h]
    have hkeys : ((l.map (fun p => if p.1 == d then (p.1, p.2 + amt) else p)).map
        (fun p => p.1)) = l.map (fun p => p.1) := by
      rw [List.map_map]
      refine List.map_congr_left ?_
      intro p _
      by_cases hp : p.1 = d
      · simp [hp]
      · simp [hp]
    rw [hkeys]
    have hd : d ∈ l.map (fun p => (p.1 : Int)) := by
      rw [List.any_eq_true] at h
      obtain ⟨p, hp, hpd⟩ := h
      have hpd' : p.1 = d := by simpa using hpd
      exact List.mem_map.mpr ⟨p, hp, hpd'⟩
    constructor
    · exact Or.inl
    · rintro (hx | rfl)
      · exact hx
      · exact hd
  · rw [if_neg h]
    simp [List.map_append]

/-- A day is a key of goal_daily_totals exactly when some transaction in
the ledger is attributed to the goal and carries that day. -/
theorem mem_goal_daily_keys (g : String) (txs : List Tx) (d : Int) :
    d ∈ (goal_daily_totals g txs).map (fun p => p.1)
      ↔ ∃ tx ∈ txs, attributedToGoal g tx = true ∧ tx.timestamp = d := by
  suffices h : ∀ init : List (Int × ℚ),
      d ∈ (txs.foldl
          (fun daily tx =>
            if attributedToGoal g tx then bump daily tx.timestamp tx.amount
            else daily) init).map (fun p => p.1)
        ↔ (d ∈ init.map (fun p => p.1)
            ∨ ∃ tx ∈ txs, attributedToGoal g tx = true ∧ tx.timestamp = d) by
    simpa [goal_daily_totals] using h []
  intro init
  induction txs generalizing init with
  | nil => simp
  | cons t ts ih =>
    simp only [List.foldl]
    by_cases ht : attributedToGoal g t = true
    · rw [if_pos ht, ih (bump init t.timestamp t.amount)]
      rw [mem_bump_keys]
      simp only [List.mem_cons]
      constructor
      · rintro ((hx | rfl) | ⟨tx, htx, ha, hd⟩)
        · exact Or.inl hx
        · exact Or.inr ⟨t, Or.inl rfl, ht, rfl⟩
        · exact Or.inr ⟨tx, Or.inr htx, ha, hd⟩
      · rintro (hx | ⟨tx, rfl | htx', ha, hd⟩)
        · exact Or.inl (Or.inl hx)
        · exact Or.inl (Or.inr hd.symm)
        · exact Or.inr ⟨tx, htx', ha, hd⟩
    · rw [if_neg ht, ih init]
      simp only [List.mem_cons]
      constructor
      · rintro (hx | ⟨tx, htx, ha, hd⟩)
        · exact Or.inl hx
        · exact Or.inr ⟨tx, Or.inr htx, ha, hd⟩
      · rintro (hx | ⟨tx, rfl | htx', ha, hd⟩)
        · exact Or.inl hx
        · exact absurd ha ht
        · exact Or.inr ⟨tx, htx', ha, hd⟩

/-- Claim C8: the computed streak n is exactly the number of consecutive
calendar days counting backward from today (today itself included) on
which at least one transaction is attributed to the goal: each of the n
days today, today - 1, ..., today - (n - 1) carries an attributed
transaction, and day today - n carries none, so the walk stopped at the
first gap. -/
theorem streak_counts_consecutive_days (g : String) (txs : List Tx)
    (today : Int) :
    (∀ k : Nat, k < (compute_streak_for_goal g txs today).1 →
      ∃ tx ∈ txs, attributedToGoal g tx = true
        ∧ tx.timestamp = today - (k : Int))
    ∧ ¬ (∃ tx ∈ txs, attributedToGoal g tx = true
        ∧ tx.timestamp
          = today - ((compute_streak_for_goal g txs today).1 : Int)) := by
  unfold compute_streak_for_goal
  by_cases hemp : (goal_daily_totals g txs).isEmpty = true
  · rw [if_pos hemp]
    have hnil : goal_daily_totals g txs = [] := by
      simpa using hemp
    constructor
    · intro k hk
      exact absurd hk (by simp)
    · intro hex
      have hmem := (mem_goal_daily_keys g txs _).mpr hex
      rw [hnil] at hmem
      simp at hmem
  · rw [if_neg hemp]
    obtain ⟨m, h1, h2, h3⟩ := streakAux_spec
      ((goal_daily_totals g txs).map (fun p => p.1)) _ today 0 none rfl
    rw [h1]
    simp only [Nat.zero_add]
    constructor
    · intro k hk
      exact (mem_goal_daily_keys g txs (today - (k : Int))).mp (h2 k hk)
    · intro hex
      exact h3 ((mem_goal_daily_keys g txs (today - (m : Int))).mpr hex)

/-- Witness for C8: with attributed contributions on day 0 and day -2 and
today = 0 (a gap at day -1), the streak is 1, and day today - 1 indeed
carries no attributed transaction. -/
theorem streak_counts_consecutive_days_witness :
    ((compute_streak_for_goal "Em" [txEmDay0, txEmDay2] 0).1 = 1)
    ∧ ¬ (∃ tx ∈ [txEmDay0, txEmDay2], attributedToGoal "Em" tx = true
        ∧ tx.timestamp
          = (0 : Int) - ((compute_streak_for_goal "Em"
              [txEmDay0, txEmDay2] 0).1 : Int)) := by
  refine ⟨?_, (streak_counts_consecutive_days "Em" _ 0).2⟩
  simp [compute_streak_for_goal, goal_daily_totals, List.foldl,
    attributedToGoal, strContains, bump, streakAux_unfold,
    txEmDay0, txEmDay2]

/-- updateFirst is invisible through any observation its function
preserves. -/
theorem updateFirst_map_eq {α β} {p : α → Bool} {f : α → α} {h : α → β}
    (hh : ∀ a, h (f a) = h a) :
    ∀ l : List α, (updateFirst p f l).map h = l.map h := by
  intro l
  induction l with
  | nil => rfl
  | cons x t ih =>
    cases hpx : p x with
    | true => simp [updateFirst, hpx, hh x]
    | false => simp [updateFirst, hpx, ih]

/-- updateFirst leaves every position holding a non-matching element
untouched. -/
theorem updateFirst_getElem_unchanged {α} {p : α → Bool} {f : α → α} :
    ∀ (l : List α) (j : Nat) (a : α), l[j]? = some a → p a = false →
      (updateFirst p f l)[j]? = l[j]? := by
  intro l
  induction l with
  | nil => intro j a h _; simp at h
  | cons x t ih =>
    intro j a hja hpa
    cases j with
    | zero =>
      have hx : x = a := by simpa using hja
      subst hx
      simp [updateFirst, hpa]
    | succ j' =>
      cases hpx : p x with
      | true => simp [updateFirst, hpx]
      | false =>
        have hrec := ih j' a (by simpa using hja) hpa
        simp [updateFirst, hpx, hrec]

/-- Claim C10: a goal contribution with a validly parsed amount carries
the transaction ledger through unchanged, preserves the name and balance
of every account, leaves every goal other than the contributed one
untouched, and leaves every account whose name differs from the goal's
source account untouched in full (so only the contributed goal's record
and the allocated field of its source account can change). -/
theorem contribution_frame (s : AppState) (i : Nat) (amt : ℚ)
    (today : Int) :
    ((add_contribution s i amt today).transactions = s.transactions)
    ∧ ((add_contribution s i amt today).accounts.map
          (fun a => (a.name, a.balance))
        = s.accounts.map (fun a => (a.name, a.balance)))
    ∧ (∀ j : Nat, j ≠ i →
        (add_contribution s i amt today).goals[j]? = s.goals[j]?)
    ∧ (∀ g : Goal, s.goals[i]? = some g →
        ∀ (j : Nat) (a : Account), s.accounts[j]? = some a →
          a.name ≠ g.allocated_from →
          (add_contribution s i amt today).accounts[j]? = s.accounts[j]?) := by
  cases hg : s.goals[i]? with
  | none => simp [add_contribution, hg]
  | some g =>
    refine ⟨?_, ?_, ?_, ?_⟩
    · simp [add_contribution, hg]
    · simp only [add_contribution, hg]
      refine updateFirst_map_eq ?_ s.accounts
      intro a
      rfl
    · intro j hj
      simp only [add_contribution, hg]
      exact List.getElem?_set_ne (by omega)
    · intro g' hg' j a hja hname
      injection hg' with hgg
      subst hgg
      simp only [add_contribution, hg]
      refine updateFirst_getElem_unchanged s.accounts j a hja ?_
      rw [beq_eq_false_iff_ne]
      exact hname

/-- Witness for C10: contributing 7 to sampleGoal in sampleState leaves
the ledger unchanged, every name and balance unchanged, and the
non-source account Other entirely unchanged. -/
theorem contribution_frame_witness :
    ((add_contribution sampleState 0 7 3).transactions
      = sampleState.transactions)
    ∧ ((add_contribution sampleState 0 7 3).accounts.map
          (fun a => (a.name, a.balance))
        = sampleState.accounts.map (fun a => (a.name, a.balance)))
    ∧ ((add_contribution sampleState 0 7 3).accounts[1]?
        = sampleState.accounts[1]?) := by
  have h := contribution_frame sampleState 0 7 3
  exact ⟨h.1, h.2.1, h.2.2.2 sampleGoal rfl 1 sampleOther rfl (by decide)⟩

end WealthApp
